import Mathlib

/-!
Verification of the pchain consensus core
(`vendor/github.com/tendermint/tendermint/consensus/state.go`).

The Go source is shallowly embedded: the RoundState struct and the state
functions (`enterNewRound`, `enterPropose`, `enterPrevote`, `enterPrecommit`,
`newDoPrevote`, `defaultSetProposal`, `setMaj23SignAggr`,
`BLSVerifySignAggr`, `sendMaj23SignAggr`, `finalizeCommit`,
`receiveRoutine`) become Lean functions over explicit state.  Machine
integers (`int`, `int64`) are modelled as `Int` for heights and rounds
(which use the value -1 as a sentinel) and `Nat` for voting power (positive
by the data model, so Go's truncating `/` agrees with `Nat` floor
division).  Go `nil` pointers become `Option`; Go panics become
`Except.error`.  External packages (`types`, `crypto`, `go-common`) are not
part of the source tree; the small parts of them the state machine touches
are modelled from the specification and marked as such in doc comments.
-/

namespace Pchain

/-- Header of a part set: total part count and the Merkle root of the parts
(`types.PartSetHeader`).  Modelled from the spec: the PartSetHeader is
(total-count, Merkle-root-of-parts); byte strings are lists of naturals. -/
structure PartSetHeader where
  total : Nat
  hash : List Nat
deriving DecidableEq

/-- The zero `PartSetHeader{}` value used for nil votes. -/
def zeroPartSetHeader : PartSetHeader := { total := 0, hash := [] }

/-- `types.BlockID`: block hash plus part-set header.  Modelled from the
spec: nil BlockID has empty hash and zero header; two BlockIDs are equal
iff both components match. -/
structure BlockID where
  hash : List Nat
  partsHeader : PartSetHeader
deriving DecidableEq

/-- The zero BlockID (Go zero value; `IsZero` compares against it). -/
def zeroBlockID : BlockID := { hash := [], partsHeader := zeroPartSetHeader }

/-- `BlockID.IsZero`: empty hash and zero parts header. -/
def BlockID.isZero (b : BlockID) : Bool := b == zeroBlockID

/-- `types.Block`.  Modelled from the spec: a block is identified by its
height and hash; the state machine only ever inspects `Height`, `Hash()`
and `HashesTo` of a block, so the remaining content is irrelevant here. -/
structure Block where
  height : Int
  hash : List Nat
deriving DecidableEq

/-- `(*types.Block).HashesTo(hash)` on a possibly-nil block pointer:
false for an empty hash or a nil block, otherwise hash equality.
Modelled from the spec glossary (BlockID identifies a block by hash). -/
def hashesTo (b : Option Block) (h : List Nat) : Bool :=
  match b with
  | none => false
  | some b => decide (h ≠ []) && b.hash == h

/-- `types.PartSet`: header plus received-part flags.  Modelled from the
spec: a block is chunked into `total` parts; a part set records which
part indices have been received. -/
structure PartSet where
  header : PartSetHeader
  filled : List Bool
deriving DecidableEq

/-- `types.NewPartSetFromHeader`: a fresh empty part set for a header. -/
def newPartSetFromHeader (h : PartSetHeader) : PartSet :=
  { header := h, filled := List.replicate h.total false }

/-- `(*types.PartSet).HasHeader` on a possibly-nil part set: false on nil. -/
def hasHeader (ps : Option PartSet) (h : PartSetHeader) : Bool :=
  match ps with
  | none => false
  | some ps => ps.header == h

/-- `(*types.PartSet).Header()` on a possibly-nil part set: zero on nil. -/
def headerOf (ps : Option PartSet) : PartSetHeader :=
  match ps with
  | none => zeroPartSetHeader
  | some ps => ps.header

/-- Vote kind (`types.VoteTypePrevote` / `types.VoteTypePrecommit`). -/
inductive VoteType where
  | prevote
  | precommit
deriving DecidableEq

/-- Canonical sign-bytes.  Modelled from the spec: a vote is signed over
(chain-id, height, round, kind, BlockID) and a proposal over (chain-id,
height, round, BlockID, POLRound, POLBlockID). -/
inductive SignBytes where
  | voteBytes (chainID : String) (height round : Int) (type : VoteType) (blockID : BlockID)
  | proposalBytes (chainID : String) (height round : Int) (hash : List Nat)
      (partsHeader : PartSetHeader) (polRound : Int) (polBlockID : BlockID)
deriving DecidableEq

/-- A signature.  Modelled from the spec: raw signing primitives are out of
scope, so a signature is represented symbolically by the public key that
produced it and the message it signed; `VerifyBytes` checks both. -/
structure Sig where
  signer : Nat
  msg : SignBytes
deriving DecidableEq

/-- `PubKey.VerifyBytes`: the signature was made by this key over this
message.  Modelled from the spec (signature verification is external). -/
def verifyBytes (pubKey : Nat) (msg : SignBytes) (s : Sig) : Bool :=
  s.signer == pubKey && s.msg == msg

/-- BLS verification of an aggregated signature against an aggregated
public-key list.  Modelled from the spec (§4.4): the aggregate of the
component signatures verifies over a message exactly when the component
signatures are by the aggregated keys, each over that same message. -/
def aggrVerify (keys : List Nat) (msg : SignBytes) (sigs : List Sig) : Bool :=
  sigs.map Sig.signer == keys && sigs.all (fun s => s.msg == msg)

/-- `types.Validator`: address, public key and voting power.  Modelled from
the spec data model (§3); addresses and keys are symbolic naturals, power
is a positive integer so `Nat` suffices. -/
structure Validator where
  address : Nat
  pubKey : Nat
  votingPower : Nat
deriving DecidableEq

/-- `types.ValidatorSet`: ordered validators plus the proposer accumulator.
Modelled from the spec (§3): order and membership fixed for a height; the
proposer is a pure function of the set and the accumulator; a validator's
index in the list is its bitmap position. -/
structure ValidatorSet where
  validators : List Validator
  accum : Int
deriving DecidableEq

/-- `ValidatorSet.Size()`. -/
def ValidatorSet.size (vs : ValidatorSet) : Nat := vs.validators.length

/-- `ValidatorSet.TotalVotingPower()`. -/
def ValidatorSet.totalVotingPower (vs : ValidatorSet) : Nat :=
  (vs.validators.map Validator.votingPower).sum

/-- `ValidatorSet.TalliedVotingPower(bitmap)`: summed power of the
validators whose bitmap bit is set (bitmap length is checked by the
caller). -/
def ValidatorSet.talliedVotingPower (vs : ValidatorSet) (bitMap : List Bool) : Nat :=
  ((vs.validators.zip bitMap).map
    (fun p => if p.2 then p.1.votingPower else 0)).sum

/-- `ValidatorSet.AggrPubKey(bitmap)`: the public keys of the validators
whose bitmap bit is set, in validator order.  Modelled from the spec
(§4.4, aggregate pubkeys of validators whose bit is set). -/
def ValidatorSet.aggrKeys (vs : ValidatorSet) (bitMap : List Bool) : List Nat :=
  (vs.validators.zip bitMap).filterMap
    (fun p => if p.2 then some p.1.pubKey else none)

/-- `ValidatorSet.IncrementAccum(k)`.  Modelled from the spec (§3): the
accumulator is advanced by the round difference; the concrete proposer
rotation is internal to the external validator-set component. -/
def ValidatorSet.incrementAccum (vs : ValidatorSet) (k : Int) : ValidatorSet :=
  { vs with accum := vs.accum + k }

/-- `ValidatorSet.GetProposer()`.  Modelled from the spec (§3): the
proposer is a pure function of the set and the accumulator. -/
def ValidatorSet.getProposer (vs : ValidatorSet) : Validator :=
  vs.validators.getD (vs.accum.toNat % vs.validators.length)
    { address := 0, pubKey := 0, votingPower := 0 }

/-- `types.Vote` (§3 data model): validator identity, height, round, kind,
BlockID, signature; this fork also stores the canonical sign-bytes on the
vote (`vote.SignBytes`, read by `sendMaj23SignAggr`). -/
structure Vote where
  validatorIndex : Nat
  validatorAddress : Nat
  height : Int
  round : Int
  type : VoteType
  blockID : BlockID
  signature : Sig
  signBytes : SignBytes
deriving DecidableEq

/-- `types.SignAggr` (§3 data model): a BLS sign-aggregate.  `signAggr` is
the aggregated signature (`none` = Go nil), kept as the list of component
signatures per the symbolic BLS model; `maj23` is the Maj23 BlockID set by
`SetMaj23`. -/
structure SignAggr where
  height : Int
  round : Int
  type : VoteType
  numValidators : Nat
  blockID : BlockID
  chainID : String
  bitArray : List Bool
  signAggr : Option (List Sig)
  signBytes : Option SignBytes
  maj23 : BlockID
deriving DecidableEq

/-- `types.MakeSignAggr` (maj23 starts as the zero BlockID, sign-bytes
unset). -/
def makeSignAggr (height round : Int) (type : VoteType) (numValidators : Nat)
    (blockID : BlockID) (chainID : String) (bitArray : List Bool)
    (signAggr : Option (List Sig)) : SignAggr :=
  { height := height, round := round, type := type,
    numValidators := numValidators, blockID := blockID, chainID := chainID,
    bitArray := bitArray, signAggr := signAggr, signBytes := none,
    maj23 := zeroBlockID }

/-- `SignAggr.SetMaj23`. -/
def SignAggr.setMaj23 (sa : SignAggr) (b : BlockID) : SignAggr :=
  { sa with maj23 := b }

/-- `ConsensusState.BLSVerifySignAggr` (state.go:1791-1835): size check,
voting-power tally with quorum `⌊2/3·Σ⌋ + 1`, aggregated-key signature
verification, and the maj23 verdict `powerSum ≥ quorum`.  Errors carry the
source's message text.  (`AggrPubKey` never fails in the symbolic model,
so its nil branch is unreachable here.) -/
def BLSVerifySignAggr (validators : ValidatorSet) (signAggr : Option SignAggr) :
    Except String Bool :=
  match signAggr with
  | none => .error "Invalid SignAggr(nil)"
  | some sa =>
    match sa.signAggr with
    | none => .error "Invalid BLSSignature(nil)"
    | some sigs =>
      let bitMap := sa.bitArray
      let quorum := validators.totalVotingPower * 2 / 3 + 1
      if validators.size ≠ bitMap.length then
        .error "validators are not matched"
      else
        let powerSum := validators.talliedVotingPower bitMap
        let aggrPubKey := validators.aggrKeys bitMap
        let vote := SignBytes.voteBytes sa.chainID sa.height sa.round sa.type sa.blockID
        if ¬ aggrVerify aggrPubKey vote sigs then
          .error "Invalid aggregate signature"
        else
          .ok (decide (powerSum ≥ quorum))

/-- `types.Proposal` (§3 data model): height, round, block header hash
(`BlockHeaderHash`), block parts header, POL round and BlockID, proposer
address info and signature. -/
structure Proposal where
  height : Int
  round : Int
  hash : List Nat
  blockPartsHeader : PartSetHeader
  polRound : Int
  polBlockID : BlockID
  proposerNetAddr : String
  proposerPeerKey : String
  signature : Sig
deriving DecidableEq

/-- `types.SignBytes(chainID, proposal)`: canonical proposal encoding. -/
def proposalSignBytes (chainID : String) (p : Proposal) : SignBytes :=
  .proposalBytes chainID p.height p.round p.hash p.blockPartsHeader p.polRound p.polBlockID

/-- `RoundStepType` (state.go:99-112), numeric and ordered. -/
inductive RoundStepType where
  | newHeight
  | newRound
  | propose
  | prevote
  | prevoteWait
  | precommit
  | precommitWait
  | commit
  | test
deriving DecidableEq

/-- The numeric value of a round step (state.go:101-111); orderings in the
source compare these numbers. -/
def RoundStepType.val : RoundStepType → Nat
  | .newHeight => 1
  | .newRound => 2
  | .propose => 3
  | .prevote => 4
  | .prevoteWait => 5
  | .precommit => 6
  | .precommitWait => 7
  | .commit => 8
  | .test => 9

/-- `consensus.HeightVoteSet`.  Modelled from the spec (§4.3): two maps
round → vote set for the current height, where a vote set (§4.2) holds one
optional vote per validator index. -/
structure HeightVoteSet where
  chainID : String
  height : Int
  round : Int
  prevotesList : List (Int × List (Option Vote))
  precommitsList : List (Int × List (Option Vote))
deriving DecidableEq

/-- `consensus.HeightVoteSignAggr`.  Modelled from the spec (§4.3, §4.8):
per-round prevote/precommit sign-aggregates for the current height, entered
by `AddSignAggr` after a successful maj23 verification. -/
structure HeightVoteSignAggr where
  chainID : String
  height : Int
  round : Int
  prevotesSA : List (Int × SignAggr)
  precommitsSA : List (Int × SignAggr)
deriving DecidableEq

/-- `HeightVoteSignAggr.Prevotes(round)`: the stored prevote aggregate. -/
def HeightVoteSignAggr.prevotes (hv : HeightVoteSignAggr) (r : Int) : Option SignAggr :=
  (hv.prevotesSA.find? (fun p => p.1 == r)).map Prod.snd

/-- `HeightVoteSignAggr.Precommits(round)`: the stored precommit aggregate. -/
def HeightVoteSignAggr.precommits (hv : HeightVoteSignAggr) (r : Int) : Option SignAggr :=
  (hv.precommitsSA.find? (fun p => p.1 == r)).map Prod.snd

/-- `TwoThirdsMajority()` of a stored aggregate.  Modelled from the spec
(§4.8): aggregates are stored only after `verify` confirmed +2/3, so a
stored aggregate yields its Maj23 BlockID. -/
def twoThirdsMajority (sa : Option SignAggr) : Option BlockID :=
  sa.map SignAggr.maj23

/-- `HeightVoteSignAggr.SetRound(r)`.  Modelled from the spec (§4.3):
pre-creates empty per-round sets up through `r`; existing entries are
untouched. -/
def HeightVoteSignAggr.setRound (hv : HeightVoteSignAggr) (r : Int) : HeightVoteSignAggr :=
  { hv with round := r }

/-- `HeightVoteSignAggr.AddSignAggr`.  Modelled from the spec (§4.8):
inserts the aggregate under its round and kind. -/
def HeightVoteSignAggr.addSignAggr (hv : HeightVoteSignAggr) (sa : SignAggr) : HeightVoteSignAggr :=
  match sa.type with
  | .prevote => { hv with prevotesSA := (sa.round, sa) :: hv.prevotesSA }
  | .precommit => { hv with precommitsSA := (sa.round, sa) :: hv.precommitsSA }

/-- `HeightVoteSignAggr.POLInfo()`.  Modelled from the spec (§4.3): the
largest round `r` (at most the current round) whose prevote set reached a
+2/3 majority, with its BlockID; `(-1, zero)` if none.  (The nil polka is
included: the spec's own scenario 3 and the sanity check in
`enterPrecommit` both require a nil polka at round r to report POL round
r.) -/
def HeightVoteSignAggr.polInfo (hv : HeightVoteSignAggr) : Int × BlockID :=
  hv.prevotesSA.foldl
    (fun acc p =>
      if p.1 ≤ hv.round ∧ acc.1 < p.1 then (p.1, p.2.maj23) else acc)
    (-1, zeroBlockID)

/-- `consensus.RoundState` (state.go:144-169).  The wall-clock fields
(`StartTime`, `CommitTime`) are omitted: no claim concerns real time. -/
structure RoundState where
  height : Int
  round : Int
  step : RoundStepType
  validators : ValidatorSet
  proposal : Option Proposal
  proposalBlock : Option Block
  proposalBlockParts : Option PartSet
  proposerNetAddr : String
  proposerPeerKey : String
  lockedRound : Int
  lockedBlock : Option Block
  lockedBlockParts : Option PartSet
  votes : HeightVoteSet
  voteSignAggr : HeightVoteSignAggr
  commitRound : Int
  lastCommit : Option SignAggr
  lastValidators : ValidatorSet
  prevoteMaj23SignAggr : Option SignAggr
  precommitMaj23SignAggr : Option SignAggr
deriving DecidableEq

/-- The consensus error values (state.go:86-94), as kinds. -/
inductive ConsError where
  | invalidProposalSignature
  | invalidProposalPOLRound
  | addingVote
  | voteHeightMismatch
  | invalidSignatureAggr
  | duplicateSignatureAggr
  | notMaj23SignatureAggr
deriving DecidableEq

/-- Static context the state functions read from outside the RoundState:
the chain id (`cs.state.ChainID`) and the application block-validity
verdict (`cs.state.ValidateBlock`). -/
structure ConsensusEnv where
  chainID : String
  validBlock : Block → Bool

/-- `ConsensusState.defaultSetProposal` (state.go:1611-1643): ignore
silently (nil error, no change) when a proposal is already set, the
height or round differ, or the step is at or past Commit; reject with
`ErrInvalidProposalPOLRound` when the POL round is neither -1 nor in
[0, round); reject with `ErrInvalidProposalSignature` when the signature
fails under the current proposer's key; otherwise install the proposal, a
fresh part set from its header, and the proposer peer key. -/
def defaultSetProposal (env : ConsensusEnv) (cs : RoundState) (proposal : Proposal) :
    RoundState × Option ConsError :=
  if cs.proposal ≠ none then (cs, none)
  else if proposal.height ≠ cs.height ∨ proposal.round ≠ cs.round then (cs, none)
  else if RoundStepType.commit.val ≤ cs.step.val then (cs, none)
  else if proposal.polRound ≠ -1 ∧
      (proposal.polRound < 0 ∨ proposal.round ≤ proposal.polRound) then
    (cs, some .invalidProposalPOLRound)
  else if ¬ verifyBytes cs.validators.getProposer.pubKey
      (proposalSignBytes env.chainID proposal) proposal.signature then
    (cs, some .invalidProposalSignature)
  else
    ({ cs with proposal := some proposal,
               proposalBlockParts := some (newPartSetFromHeader proposal.blockPartsHeader),
               proposerPeerKey := proposal.proposerPeerKey }, none)

/-- Spec-side acceptance function for `set_proposal` (spec §4.8, §7),
written from the spec's words: accept only when there is no current
Proposal, heights and rounds match, step < Commit, POLRound is in
{-1} ∪ [0, round-1], and the signature verifies under the current
proposer's pubkey; install cs.Proposal and a fresh empty
ProposalBlockParts from the proposal's parts header.  Validation errors
never mutate the state; non-applicable proposals are ignored silently. -/
def setProposalSpec (env : ConsensusEnv) (cs : RoundState) (p : Proposal) :
    RoundState × Option ConsError :=
  if cs.proposal ≠ none then (cs, none)
  else if p.height ≠ cs.height ∨ p.round ≠ cs.round then (cs, none)
  else if RoundStepType.commit.val ≤ cs.step.val then (cs, none)
  else if ¬ (p.polRound = -1 ∨ (0 ≤ p.polRound ∧ p.polRound ≤ p.round - 1)) then
    (cs, some .invalidProposalPOLRound)
  else if ¬ verifyBytes cs.validators.getProposer.pubKey
      (proposalSignBytes env.chainID p) p.signature then
    (cs, some .invalidProposalSignature)
  else
    ({ cs with proposal := some p,
               proposalBlockParts := some (newPartSetFromHeader p.blockPartsHeader),
               proposerPeerKey := p.proposerPeerKey }, none)

/-- The arguments of a `signAddVote` call: vote kind, block hash and parts
header (the signed vote that the state machine emits). -/
structure VoteOut where
  type : VoteType
  hash : List Nat
  header : PartSetHeader
deriving DecidableEq

/-- `ConsensusState.newDoPrevote` (state.go:1161-1186), the `doPrevote`
hook installed by `NewConsensusState` (state.go:305): prevote the locked
block if locked, nil if there is no Proposal, otherwise the proposal's
block header hash. -/
def newDoPrevote (cs : RoundState) : VoteOut :=
  match cs.lockedBlock with
  | some b => { type := .prevote, hash := b.hash, header := headerOf cs.lockedBlockParts }
  | none =>
    match cs.proposal with
    | none => { type := .prevote, hash := [], header := zeroPartSetHeader }
    | some p => { type := .prevote, hash := p.hash, header := p.blockPartsHeader }

/-- Spec-side prevote decision (spec §4.7, Prevote(r)), written from the
spec's words: if LockedBlock ≠ nil prevote LockedBlock.hash, else if
Proposal = nil prevote nil, else prevote the proposed block's hash. -/
def prevoteDecisionSpec (cs : RoundState) : VoteOut :=
  if cs.lockedBlock ≠ none then
    { type := .prevote,
      hash := (cs.lockedBlock.map Block.hash).getD [],
      header := headerOf cs.lockedBlockParts }
  else if cs.proposal = none then
    { type := .prevote, hash := [], header := zeroPartSetHeader }
  else
    { type := .prevote,
      hash := (cs.proposal.map Proposal.hash).getD [],
      header := (cs.proposal.map Proposal.blockPartsHeader).getD zeroPartSetHeader }

/-- `ConsensusState.enterPrecommit` (state.go:1261-1359) as a function from
state to state plus the emitted `signAddVote` call; Go panics
(`PanicSanity` on a stale POL round, `PanicConsensus` on an invalid
polka block) become `Except.error`.  The deferred
`updateRoundStep(round, RoundStepPrecommit)` applies on every non-guard
return. -/
def enterPrecommit (env : ConsensusEnv) (cs : RoundState) (height round : Int) :
    Except String (RoundState × Option VoteOut) :=
  if cs.height ≠ height ∨ round < cs.round ∨
      (cs.round = round ∧ RoundStepType.precommit.val ≤ cs.step.val) then
    .ok (cs, none)
  else
    let finish : RoundState → Option VoteOut → Except String (RoundState × Option VoteOut) :=
      fun cs1 out => .ok ({ cs1 with round := round, step := .precommit }, out)
    match twoThirdsMajority (cs.voteSignAggr.prevotes round) with
    | none =>
      finish cs (some { type := .precommit, hash := [], header := zeroPartSetHeader })
    | some blockID =>
      if (cs.voteSignAggr.polInfo).1 < round then
        .error "This POLRound should be the current round but got a stale one"
      else if blockID.hash = [] then
        if cs.lockedBlock = none then
          finish cs (some { type := .precommit, hash := [], header := zeroPartSetHeader })
        else
          finish { cs with lockedRound := 0, lockedBlock := none, lockedBlockParts := none }
            (some { type := .precommit, hash := [], header := zeroPartSetHeader })
      else if hashesTo cs.lockedBlock blockID.hash then
        finish { cs with lockedRound := round }
          (some { type := .precommit, hash := blockID.hash, header := blockID.partsHeader })
      else if hashesTo cs.proposalBlock blockID.hash then
        if ¬ (cs.proposalBlock.map env.validBlock).getD false then
          .error "enterPrecommit: 2/3+ prevoted for an invalid block"
        else
          finish { cs with lockedRound := round, lockedBlock := cs.proposalBlock,
                           lockedBlockParts := cs.proposalBlockParts }
            (some { type := .precommit, hash := blockID.hash, header := blockID.partsHeader })
      else
        let cs1 := { cs with lockedRound := 0, lockedBlock := none, lockedBlockParts := none }
        let cs2 :=
          if ¬ hasHeader cs1.proposalBlockParts blockID.partsHeader then
            { cs1 with proposalBlock := none,
                       proposalBlockParts := some (newPartSetFromHeader blockID.partsHeader) }
          else cs1
        finish cs2 (some { type := .precommit, hash := [], header := zeroPartSetHeader })

/-- `ConsensusState.enterPrevote` (state.go:1123-1159), RoundState effect:
after the guard, `doPrevote` only signs and enqueues a vote (see
`newDoPrevote`), then the deferred `updateRoundStep(round,
RoundStepPrevote)` runs. -/
def enterPrevoteStep (cs : RoundState) (height round : Int) : RoundState :=
  if cs.height ≠ height ∨ round < cs.round ∨
      (cs.round = round ∧ RoundStepType.prevote.val ≤ cs.step.val) then cs
  else { cs with round := round, step := .prevote }

/-- `ConsensusState.enterPropose` (state.go:935-978), RoundState effect:
after the guard, the body only schedules the propose timeout and (when
proposer) runs `decideProposal`, which sends internal messages without
assigning RoundState fields (state.go:1016-1022); the deferred block sets
the step to Propose and, when a Proposal is present, enters Prevote. -/
def enterProposeStep (cs : RoundState) (height round : Int) : RoundState :=
  if cs.height ≠ height ∨ round < cs.round ∨
      (cs.round = round ∧ RoundStepType.propose.val ≤ cs.step.val) then cs
  else
    let cs1 : RoundState := { cs with round := round, step := .propose }
    if cs1.proposal ≠ none then enterPrevoteStep cs1 height round else cs1

/-- `ConsensusState.enterNewRound` (state.go:885-932): guard; advance the
proposer accumulator by the round difference; step to NewRound; clear
Proposal, ProposalBlock, ProposalBlockParts and both Maj23 aggregates
unless entering round 0; extend `VoteSignAggr` to round+1; then
immediately enter Propose. -/
def enterNewRound (cs : RoundState) (height round : Int) : RoundState :=
  if cs.height ≠ height ∨ round < cs.round ∨
      (cs.round = round ∧ cs.step ≠ RoundStepType.newHeight) then cs
  else
    let validators :=
      if cs.round < round then cs.validators.incrementAccum (round - cs.round)
      else cs.validators
    let cs1 : RoundState := { cs with round := round, step := .newRound, validators := validators }
    let cs2 : RoundState :=
      if round = 0 then cs1
      else { cs1 with proposal := none, proposalBlock := none, proposalBlockParts := none,
                      prevoteMaj23SignAggr := none, precommitMaj23SignAggr := none }
    let cs3 : RoundState := { cs2 with voteSignAggr := cs2.voteSignAggr.setRound (round + 1) }
    enterProposeStep cs3 height round

/-- `ConsensusState.isProposalComplete` (state.go:1054-1068): proposal and
proposal block present, and when the proposal has a POL round, the prevote
aggregate from it has a +2/3 majority. -/
def isProposalComplete (cs : RoundState) : Bool :=
  if cs.proposal = none ∨ cs.proposalBlock = none then false
  else
    match cs.proposal with
    | none => false
    | some p =>
      if p.polRound < 0 then true
      else (twoThirdsMajority (cs.voteSignAggr.prevotes p.polRound)).isSome

/-- The transition `setMaj23SignAggr` would recurse into after a stored
aggregate completes the proposal: `enterPrecommit` for prevote aggregates,
`enterCommit` for precommit aggregates.  These transitions are modelled as
separate functions; the marker records which one the source invokes. -/
inductive FollowUp where
  | noFollowUp
  | toPrecommit
  | toCommit
deriving DecidableEq

/-- `ConsensusState.setMaj23SignAggr` (state.go:1694-1771): ignore on a
height/round mismatch; reject with `ErrInvalidSignatureAggr` when
`verifyMaj23SignAggr` (= `BLSVerifySignAggr`, state.go:1773-1789) errors
or reports maj23 = false; reject with `ErrDuplicateSignatureAggr` when an
aggregate of the same kind is already stored; otherwise store the
aggregate in `VoteSignAggr` and the kind's Maj23 field and, when the
proposal is complete, enter Precommit (prevote kind) or Commit (precommit
kind) — returned here as a `FollowUp` marker next to the source's
`(error, entered)` pair. -/
def setMaj23SignAggr (cs : RoundState) (signAggr : SignAggr) :
    RoundState × Option ConsError × Bool × FollowUp :=
  if signAggr.height ≠ cs.height ∨ signAggr.round ≠ cs.round then
    (cs, none, false, .noFollowUp)
  else
    match BLSVerifySignAggr cs.validators (some signAggr) with
    | .error _ => (cs, some .invalidSignatureAggr, false, .noFollowUp)
    | .ok maj23 =>
      if maj23 = false then (cs, some .invalidSignatureAggr, false, .noFollowUp)
      else
        match signAggr.type with
        | .prevote =>
          if cs.prevoteMaj23SignAggr ≠ none then
            (cs, some .duplicateSignatureAggr, false, .noFollowUp)
          else
            let cs1 : RoundState :=
              { cs with voteSignAggr := cs.voteSignAggr.addSignAggr signAggr,
                        prevoteMaj23SignAggr := some signAggr }
            if isProposalComplete cs1 then (cs1, none, true, .toPrecommit)
            else (cs1, none, false, .noFollowUp)
        | .precommit =>
          if cs.precommitMaj23SignAggr ≠ none then
            (cs, some .duplicateSignatureAggr, false, .noFollowUp)
          else
            let cs1 : RoundState :=
              { cs with voteSignAggr := cs.voteSignAggr.addSignAggr signAggr,
                        precommitMaj23SignAggr := some signAggr }
            if isProposalComplete cs1 then (cs1, none, true, .toCommit)
            else (cs1, none, false, .noFollowUp)

/-- Accumulator of the vote loop in `sendMaj23SignAggr` (state.go:2077-2084):
the bit array being filled, the collected signatures, the last seen
BlockID (`blockID`) and the last seen sign-bytes (`ss`). -/
structure AggrAcc where
  bits : List Bool
  sigs : List Sig
  bid : BlockID
  ss : Option SignBytes
deriving DecidableEq

/-- The `for index, vote := range votes` loop of `sendMaj23SignAggr`: for
every non-nil vote, set the bit at its index, append its signature, and
remember its BlockID and sign-bytes. -/
def aggrLoop : Nat → AggrAcc → List (Option Vote) → AggrAcc
  | _, acc, [] => acc
  | i, acc, none :: rest => aggrLoop (i + 1) acc rest
  | i, acc, some v :: rest =>
    aggrLoop (i + 1)
      { bits := acc.bits.set i true, sigs := acc.sigs ++ [v.signature],
        bid := v.blockID, ss := some v.signBytes } rest

/-- `ConsensusState.sendMaj23SignAggr` (state.go:2053-2114), the aggregate
it constructs and sends: run the vote loop over the round's votes (one
optional vote per validator index, modelled from the spec §4.2), BLS-
aggregate the collected signatures (fatal when there are none), build the
SignAggr from the loop's last BlockID, panic when the majority BlockID is
zero, else attach it via `SetMaj23`.  The vote list and the majority
BlockID are the values the source reads from the round's VoteSet. -/
def sendMaj23SignAggr (chainID : String) (height round : Int) (voteType : VoteType)
    (numValidators : Nat) (votes : List (Option Vote)) (maj23 : BlockID) :
    Except String SignAggr :=
  let acc := aggrLoop 0
    { bits := List.replicate numValidators false, sigs := [], bid := zeroBlockID, ss := none }
    votes
  if acc.sigs.isEmpty then .error "Can not aggregate signature"
  else
    let signAggr :=
      { makeSignAggr height round voteType numValidators acc.bid chainID acc.bits
          (some acc.sigs) with signBytes := acc.ss }
    if maj23.isZero then .error "Invalid maj23"
    else .ok (signAggr.setMaj23 maj23)

/-- The bitmap the claim (and spec §4.4) prescribes for an aggregate: a bit
per validator index, set exactly for the non-nil votes whose BlockID is
the target BlockID. -/
def claimBitmap (votes : List (Option Vote)) (b : BlockID) : List Bool :=
  votes.map (fun ov => match ov with
    | none => false
    | some v => v.blockID == b)

/-- Relation between a validator and their optional vote in a vote set:
if present, the vote is for the target BlockID and carries the
validator's signature over the canonical vote encoding. -/
def VoteSigProp (chainID : String) (height round : Int) (t : VoteType) (b : BlockID)
    (val : Validator) (ov : Option Vote) : Prop :=
  ∀ v, ov = some v →
    v.blockID = b ∧
    v.signature = { signer := val.pubKey, msg := .voteBytes chainID height round t b }

/-- Summed voting power of the votes for a given BlockID (one optional
vote per validator index). -/
def powerForBlock (vals : ValidatorSet) (votes : List (Option Vote)) (b : BlockID) : Nat :=
  ((vals.validators.zip votes).map
    (fun p => match p.2 with
      | some v => if v.blockID == b then p.1.votingPower else 0
      | none => 0)).sum

/-- The inputs `finalizeCommit` (state.go:1454-1565) reads: RoundState
height/round/step/CommitRound, the +2/3 precommit majority of
`VoteSignAggr.Precommits(CommitRound)`, the proposal block and parts, the
block store height, whether a WAL is open, the `ValidateBlock` verdict and
the `ApplyBlock` outcome. -/
structure FcState where
  height : Int
  round : Int
  step : RoundStepType
  commitRound : Int
  precommitMaj : Option BlockID
  proposalBlock : Option Block
  proposalBlockParts : Option PartSet
  blockStoreHeight : Int
  walOpen : Bool
  blockValid : Bool
  applyOk : Bool
deriving DecidableEq

/-- The externally visible actions of `finalizeCommit`, in order. -/
inductive FcAction where
  | buildSeenCommit (commitRound : Int)
  | saveBlock (height : Int)
  | walEndHeight (height : Int)
  | applyBlock (height : Int)
  | fireNewBlockEvents
  | updateToStateAndEpoch
  | scheduleRound0
deriving DecidableEq

/-- `ConsensusState.finalizeCommit` (state.go:1454-1565) as the trace of
its externally visible actions: guard (silent return on a height/step
mismatch); panic without a +2/3 majority, on a parts-header mismatch, on a
hash mismatch, or on an invalid block; build the seen commit from
`Precommits(CommitRound)` and save the block only when the block store is
behind; write the WAL end-height record when a WAL is open; invoke
`ApplyBlock` and, if it succeeds, fire the new-block events, update to the
new state and epoch, and schedule round 0 of the next height. -/
def finalizeCommitTrace (cs : FcState) (height : Int) : Except String (List FcAction) :=
  if cs.height ≠ height ∨ cs.step ≠ RoundStepType.commit then .ok []
  else
    match cs.precommitMaj with
    | none => .error "Cannot finalizeCommit, commit does not have two thirds majority"
    | some blockID =>
      if ¬ hasHeader cs.proposalBlockParts blockID.partsHeader then
        .error "Expected ProposalBlockParts header to be commit header"
      else
        match cs.proposalBlock with
        | none => .error "Cannot finalizeCommit, ProposalBlock does not hash to commit hash"
        | some block =>
          if ¬ hashesTo (some block) blockID.hash then
            .error "Cannot finalizeCommit, ProposalBlock does not hash to commit hash"
          else if ¬ cs.blockValid then
            .error "+2/3 committed an invalid block"
          else
            let saveActs :=
              if cs.blockStoreHeight < block.height then
                [FcAction.buildSeenCommit cs.commitRound, FcAction.saveBlock block.height]
              else []
            let walActs := if cs.walOpen then [FcAction.walEndHeight height] else []
            if cs.applyOk then
              .ok (saveActs ++ walActs ++
                [FcAction.applyBlock height, FcAction.fireNewBlockEvents,
                 FcAction.updateToStateAndEpoch, FcAction.scheduleRound0])
            else
              .ok (saveActs ++ walActs ++ [FcAction.applyBlock height])

/-- Action is the seen-commit construction. -/
def isBuildSeen : FcAction → Bool
  | .buildSeenCommit _ => true
  | _ => false

/-- Action is the block-store save. -/
def isSaveBlockAct : FcAction → Bool
  | .saveBlock _ => true
  | _ => false

/-- Action is the WAL end-height write. -/
def isWalEnd : FcAction → Bool
  | .walEndHeight _ => true
  | _ => false

/-- Action is the ApplyBlock invocation. -/
def isApplyBlockAct : FcAction → Bool
  | .applyBlock _ => true
  | _ => false

/-- Every position satisfying `q` is strictly preceded by one satisfying
`p`. -/
def PrecededP {α : Type} (p q : α → Bool) (tr : List α) : Prop :=
  ∀ (j : Nat) (b : α), tr[j]? = some b → q b = true →
    ∃ (i : Nat) (a : α), i < j ∧ tr[i]? = some a ∧ p a = true

/-- Every position satisfying `p` comes strictly before every position
satisfying `q`. -/
def AllBeforeP {α : Type} (p q : α → Bool) (tr : List α) : Prop :=
  ∀ (i j : Nat) (a b : α), tr[i]? = some a → tr[j]? = some b →
    p a = true → q b = true → i < j

/-- Executable check for `PrecededP`: scanning left to right, a `q`
element before the first `p` element fails; after a `p` element everything
is preceded. -/
def precededChk {α : Type} (p q : α → Bool) : List α → Bool
  | [] => true
  | a :: rest => if q a then false else if p a then true else precededChk p q rest

/-- Executable check for `AllBeforeP`: from the first `q` element onward
no `p` element may occur. -/
def allBeforeChk {α : Type} (p q : α → Bool) : List α → Bool
  | [] => true
  | a :: rest =>
    if q a then (a :: rest).all (fun x => ! p x) else allBeforeChk p q rest

/-- A consensus message as delivered to the receive routine
(state.go ConsensusMessage; §6 transport interface). -/
inductive ConsensusMsg where
  | proposalMsg (p : Proposal)
  | blockPartMsg (height round : Int) (partIndex : Nat) (partBytes : List Nat)
  | voteMsg (v : Vote)
  | maj23SignAggrMsg (sa : SignAggr)
deriving DecidableEq

/-- `consensus.msgInfo` (state.go:225-228): message plus peer key. -/
structure MsgInfo where
  msg : ConsensusMsg
  peerKey : String
deriving DecidableEq

/-- `consensus.timeoutInfo` (state.go:231-236). -/
structure TimeoutInfo where
  durationMs : Nat
  height : Int
  round : Int
  step : RoundStepType
deriving DecidableEq

/-- A WAL entry as written by the receive routine: a message or a timeout
tick (§4.6). -/
inductive WALEntry where
  | msgEntry (mi : MsgInfo)
  | timeoutEntry (ti : TimeoutInfo)
deriving DecidableEq

/-- An event the receive routine's select consumes (state.go:722-738):
a peer message, an internal message, or a timeout tick. -/
inductive RxInput where
  | fromPeer (mi : MsgInfo)
  | fromInternal (mi : MsgInfo)
  | tick (ti : TimeoutInfo)
deriving DecidableEq

/-- The WAL entry a given event is saved as. -/
def walEntryOf : RxInput → WALEntry
  | .fromPeer mi => .msgEntry mi
  | .fromInternal mi => .msgEntry mi
  | .tick ti => .timeoutEntry ti

/-- An observable action of one receive-routine iteration. -/
inductive RxAction where
  | walSave (e : WALEntry)
  | handleMsg (mi : MsgInfo)
  | handleTimeout (ti : TimeoutInfo)
deriving DecidableEq

/-- Action is a handler invocation. -/
def isHandle : RxAction → Bool
  | .handleMsg _ => true
  | .handleTimeout _ => true
  | .walSave _ => false

/-- One iteration of `ConsensusState.receiveRoutine` (state.go:710-754):
each select arm saves the consumed event to the WAL (`cs.wal.Save`) and
then dispatches it to `handleMsg` or `handleTimeout`. -/
def receiveRoutineStep : RxInput → List RxAction
  | .fromPeer mi => [.walSave (.msgEntry mi), .handleMsg mi]
  | .fromInternal mi => [.walSave (.msgEntry mi), .handleMsg mi]
  | .tick ti => [.walSave (.timeoutEntry ti), .handleTimeout ti]

/-! Concrete fixtures: a four-validator set with unit voting power and the
small blocks, proposals and aggregates used to evaluate the state
functions on concrete inputs. -/

/-- Fixture validator set: four validators of voting power 1 each
(quorum is then 4*2/3+1 = 3). -/
def vals4 : ValidatorSet :=
  { validators :=
      [ { address := 1, pubKey := 101, votingPower := 1 },
        { address := 2, pubKey := 102, votingPower := 1 },
        { address := 3, pubKey := 103, votingPower := 1 },
        { address := 4, pubKey := 104, votingPower := 1 } ],
    accum := 0 }

/-- Fixture BlockID of the block `blockB`. -/
def bidB : BlockID := { hash := [7], partsHeader := { total := 1, hash := [9] } }

/-- Fixture block. -/
def blockB : Block := { height := 1, hash := [7] }

/-- Fixture complete part set of `blockB`. -/
def partsB : PartSet := { header := { total := 1, hash := [9] }, filled := [true] }

/-- Fixture canonical prevote message for `bidB` at height 1, round 0. -/
def msgB : SignBytes := .voteBytes "pchain" 1 0 .prevote bidB

/-- Fixture canonical prevote message for the nil BlockID. -/
def msgNil : SignBytes := .voteBytes "pchain" 1 0 .prevote zeroBlockID

/-- Fixture prevote for `bidB` by the validator at a given index. -/
def prevoteFor (idx pubKey : Nat) : Vote :=
  { validatorIndex := idx, validatorAddress := idx + 1, height := 1, round := 0,
    type := .prevote, blockID := bidB,
    signature := { signer := pubKey, msg := msgB }, signBytes := msgB }

/-- Fixture nil prevote by the fourth validator. -/
def nilVoteD : Vote :=
  { validatorIndex := 3, validatorAddress := 4, height := 1, round := 0,
    type := .prevote, blockID := zeroBlockID,
    signature := { signer := 104, msg := msgNil }, signBytes := msgNil }

/-- Fixture static context. -/
def envW : ConsensusEnv := { chainID := "pchain", validBlock := fun _ => true }

/-- Fixture empty height-vote-set. -/
def hvsW : HeightVoteSet :=
  { chainID := "pchain", height := 1, round := 1, prevotesList := [], precommitsList := [] }

/-- Fixture empty height sign-aggregate set. -/
def hvsaEmpty : HeightVoteSignAggr :=
  { chainID := "pchain", height := 1, round := 1, prevotesSA := [], precommitsSA := [] }

/-- Fixture base RoundState at height 1, round 0. -/
def baseCs : RoundState :=
  { height := 1, round := 0, step := .propose, validators := vals4,
    proposal := none, proposalBlock := none, proposalBlockParts := none,
    proposerNetAddr := "", proposerPeerKey := "",
    lockedRound := 0, lockedBlock := none, lockedBlockParts := none,
    votes := hvsW, voteSignAggr := hvsaEmpty,
    commitRound := -1, lastCommit := none, lastValidators := vals4,
    prevoteMaj23SignAggr := none, precommitMaj23SignAggr := none }

/-- Fixture proposal for `blockB` at height 1, round 0, signed by the
first validator. -/
def propB : Proposal :=
  { height := 1, round := 0, hash := [7],
    blockPartsHeader := { total := 1, hash := [9] },
    polRound := -1, polBlockID := zeroBlockID,
    proposerNetAddr := "", proposerPeerKey := "pkA",
    signature :=
      { signer := 101,
        msg := .proposalBytes "pchain" 1 0 [7] { total := 1, hash := [9] } (-1) zeroBlockID } }

/-- Fixture proposal at the wrong height (ignored silently). -/
def propWrongHeight : Proposal := { propB with height := 2 }

/-- Fixture prevote aggregate recording a nil polka at round 1. -/
def aggNilPolka : SignAggr :=
  { height := 1, round := 1, type := .prevote, numValidators := 4,
    blockID := zeroBlockID, chainID := "pchain",
    bitArray := [true, true, true, true], signAggr := some [], signBytes := none,
    maj23 := zeroBlockID }

/-- Fixture RoundState at height 1, round 1, locked on `blockB`, with a
nil polka recorded at round 1. -/
def c1CsW : RoundState :=
  { baseCs with round := 1, step := .prevote,
                lockedRound := 0, lockedBlock := some blockB, lockedBlockParts := some partsB,
                voteSignAggr :=
                  { chainID := "pchain", height := 1, round := 2,
                    prevotesSA := [(1, aggNilPolka)], precommitsSA := [] },
                prevoteMaj23SignAggr := some aggNilPolka }

/-- Fixture finalize-commit inputs: committed `blockB` at commit round 0,
block store behind, WAL open, valid block, successful apply. -/
def c2FcW : FcState :=
  { height := 1, round := 0, step := .commit, commitRound := 0,
    precommitMaj := some bidB, proposalBlock := some blockB,
    proposalBlockParts := some partsB, blockStoreHeight := 0,
    walOpen := true, blockValid := true, applyOk := true }

/-- Fixture finalize-commit trace of `c2FcW`. -/
def c2TraceW : List FcAction :=
  [.buildSeenCommit 0, .saveBlock 1, .walEndHeight 1, .applyBlock 1,
   .fireNewBlockEvents, .updateToStateAndEpoch, .scheduleRound0]

/-- Fixture vote list: three prevotes for `bidB`, fourth validator absent. -/
def c3VotesW : List (Option Vote) :=
  [some (prevoteFor 0 101), some (prevoteFor 1 102), some (prevoteFor 2 103), none]

/-- Fixture vote list: three prevotes for `bidB` plus a nil prevote. -/
def c3VotesX : List (Option Vote) :=
  [some (prevoteFor 0 101), some (prevoteFor 1 102), some (prevoteFor 2 103), some nilVoteD]

/-- The aggregate `sendMaj23SignAggr` builds from `c3VotesX`: every
non-nil vote contributes a bit, the nil vote included; its BlockID field
is the last vote's (nil) BlockID. -/
def c3AggX : SignAggr :=
  { height := 1, round := 0, type := .prevote, numValidators := 4,
    blockID := zeroBlockID, chainID := "pchain",
    bitArray := [true, true, true, true],
    signAggr := some
      [{ signer := 101, msg := msgB }, { signer := 102, msg := msgB },
       { signer := 103, msg := msgB }, { signer := 104, msg := msgNil }],
    signBytes := some msgNil, maj23 := bidB }

/-- Fixture sign-aggregate carried by three matching prevote signatures
(power 3 of 4, exactly quorum). -/
def c4SaW : SignAggr :=
  { height := 1, round := 0, type := .prevote, numValidators := 4,
    blockID := bidB, chainID := "pchain",
    bitArray := [true, true, true, false],
    signAggr := some
      [{ signer := 101, msg := msgB }, { signer := 102, msg := msgB },
       { signer := 103, msg := msgB }],
    signBytes := none, maj23 := bidB }

/-- Fixture sign-aggregate with only two contributing validators
(power 2 of 4, short of the quorum of 3) whose signature verifies. -/
def c6SaShort : SignAggr :=
  { height := 1, round := 0, type := .prevote, numValidators := 4,
    blockID := bidB, chainID := "pchain",
    bitArray := [true, true, false, false],
    signAggr := some
      [{ signer := 101, msg := msgB }, { signer := 102, msg := msgB }],
    signBytes := none, maj23 := bidB }

/-- Fixture RoundState locked on `blockB` at round 0, about to enter
round 1. -/
def c9CsW : RoundState :=
  { baseCs with step := .precommitWait,
                proposal := some propB, proposalBlock := some blockB,
                proposalBlockParts := some partsB,
                lockedRound := 0, lockedBlock := some blockB,
                lockedBlockParts := some partsB }

/-- Fixture message info for the receive routine. -/
def miW : MsgInfo := { msg := .proposalMsg propB, peerKey := "peer1" }

/-! Helper lemmas. -/

/-- Elements reached through `getElem?` satisfy an `all` predicate. -/
theorem all_getElem {α : Type} (f : α → Bool) :
    ∀ (l : List α), l.all f = true → ∀ (i : Nat) (x : α), l[i]? = some x → f x = true := by
  intro l
  induction l with
  | nil => intro _ i x hx; simp at hx
  | cons a rest ih =>
    intro hall i x hx
    rw [List.all_cons, Bool.and_eq_true] at hall
    cases i with
    | zero =>
      rw [List.getElem?_cons_zero] at hx
      injection hx with hax
      subst hax
      exact hall.1
    | succ k => rw [List.getElem?_cons_succ] at hx; exact ih hall.2 k x hx

/-- Soundness of `precededChk`. -/
theorem precededChk_sound {α : Type} (p q : α → Bool) :
    ∀ tr : List α, precededChk p q tr = true → PrecededP p q tr := by
  intro tr
  induction tr with
  | nil => intro _ j b hj _; simp at hj
  | cons a rest ih =>
    intro hchk j b hj hq
    by_cases hqa : q a = true
    · rw [precededChk, if_pos hqa] at hchk; cases hchk
    · rw [precededChk, if_neg hqa] at hchk
      by_cases hpa : p a = true
      · cases j with
        | zero =>
          rw [List.getElem?_cons_zero] at hj
          injection hj with hab
          subst hab
          exact absurd hq hqa
        | succ k =>
          exact ⟨0, a, Nat.succ_pos k, List.getElem?_cons_zero, hpa⟩
      · rw [if_neg hpa] at hchk
        cases j with
        | zero =>
          rw [List.getElem?_cons_zero] at hj
          injection hj with hab
          subst hab
          exact absurd hq hqa
        | succ k =>
          rw [List.getElem?_cons_succ] at hj
          obtain ⟨i, c, hik, hgc, hpc⟩ := ih hchk k b hj hq
          exact ⟨i + 1, c, by omega, by rw [List.getElem?_cons_succ]; exact hgc, hpc⟩

/-- Soundness of `allBeforeChk`. -/
theorem allBeforeChk_sound {α : Type} (p q : α → Bool) :
    ∀ tr : List α, allBeforeChk p q tr = true → AllBeforeP p q tr := by
  intro tr
  induction tr with
  | nil => intro _ i j x y hx _ _ _; simp at hx
  | cons a rest ih =>
    intro hchk i j x y hi hj hx hy
    by_cases hqa : q a = true
    · rw [allBeforeChk, if_pos hqa] at hchk
      have := all_getElem (fun z => ! p z) (a :: rest) hchk i x hi
      simp only [Bool.not_eq_true'] at this
      rw [this] at hx; cases hx
    · rw [allBeforeChk, if_neg hqa] at hchk
      cases j with
      | zero =>
        rw [List.getElem?_cons_zero] at hj
        injection hj with hay
        subst hay
        exact absurd hy hqa
      | succ k =>
        cases i with
        | zero => omega
        | succ m =>
          rw [List.getElem?_cons_succ] at hi hj
          have := ih hchk m k x y hi hj hx hy
          omega

/-- Evaluation of `BLSVerifySignAggr` on an aggregate whose signature
field is non-nil. -/
theorem blsVerify_some (vals : ValidatorSet) (sa : SignAggr) (sigs : List Sig)
    (hs : sa.signAggr = some sigs) :
    BLSVerifySignAggr vals (some sa) =
      (if vals.size ≠ sa.bitArray.length then
        Except.error "validators are not matched"
      else if ¬ aggrVerify (vals.aggrKeys sa.bitArray)
          (.voteBytes sa.chainID sa.height sa.round sa.type sa.blockID) sigs then
        Except.error "Invalid aggregate signature"
      else
        Except.ok (decide (vals.talliedVotingPower sa.bitArray ≥
          vals.totalVotingPower * 2 / 3 + 1))) := by
  obtain ⟨h, r, t, n, bid, cid, ba, sgo, sb, mj⟩ := sa
  replace hs : sgo = some sigs := hs
  subst hs
  rfl

/-! Claim theorems. -/

/-- Claim C5: `defaultSetProposal` accepts a proposal exactly under the
spec's conditions — no current Proposal, matching height and round, step
below Commit, POLRound in {-1} ∪ [0, round-1] (rejecting outside values
with the InvalidProposalPOLRound error), verified proposer signature —
and then installs the proposal together with a fresh empty part set built
from its parts header.  Proved as a refinement: the source function
equals the function written from the spec's words. -/
theorem c5_set_proposal (env : ConsensusEnv) (cs : RoundState) (p : Proposal) :
    defaultSetProposal env cs p = setProposalSpec env cs p := by
  unfold defaultSetProposal setProposalSpec
  by_cases h1 : cs.proposal ≠ none
  · rw [if_pos h1, if_pos h1]
  · rw [if_neg h1, if_neg h1]
    by_cases h2 : p.height ≠ cs.height ∨ p.round ≠ cs.round
    · rw [if_pos h2, if_pos h2]
    · rw [if_neg h2, if_neg h2]
      by_cases h3 : RoundStepType.commit.val ≤ cs.step.val
      · rw [if_pos h3, if_pos h3]
      · rw [if_neg h3, if_neg h3]
        by_cases h4 : p.polRound = -1 ∨ (0 ≤ p.polRound ∧ p.polRound ≤ p.round - 1)
        · have h4a : ¬ (p.polRound ≠ -1 ∧ (p.polRound < 0 ∨ p.round ≤ p.polRound)) := by
            omega
          have h4b : ¬ ¬ (p.polRound = -1 ∨ (0 ≤ p.polRound ∧ p.polRound ≤ p.round - 1)) :=
            not_not_intro h4
          rw [if_neg h4a, if_neg h4b]
        · have h4a : p.polRound ≠ -1 ∧ (p.polRound < 0 ∨ p.round ≤ p.polRound) := by
            omega
          rw [if_pos h4a, if_pos h4]

/-- Claim C7: the prevote decision of the engine (the `newDoPrevote` hook
installed by `NewConsensusState`, state.go:305): prevote the locked
block's hash when locked, nil when there is no Proposal, and the proposed
block's hash otherwise.  Proved as a refinement: the source function
equals the decision written from the spec's words. -/
theorem c7_prevote_decision (cs : RoundState) :
    newDoPrevote cs = prevoteDecisionSpec cs := by
  cases hlb : cs.lockedBlock with
  | some b => simp [newDoPrevote, prevoteDecisionSpec, hlb]
  | none =>
    cases hp : cs.proposal with
    | none => simp [newDoPrevote, prevoteDecisionSpec, hlb, hp]
    | some p => simp [newDoPrevote, prevoteDecisionSpec, hlb, hp]

/-- Claim C10: a proposal whose height or round differs from the current
RoundState, or that arrives when a proposal is already set, or when the
step is at or past Commit, is ignored by `defaultSetProposal` with a nil
error and an unchanged RoundState; an accepted proposal also returns a
nil error, so the return value does not distinguish the two. -/
theorem c10_silent_ignore (env : ConsensusEnv) (cs : RoundState) (p : Proposal) :
    ((cs.proposal ≠ none ∨ p.height ≠ cs.height ∨ p.round ≠ cs.round ∨
        RoundStepType.commit.val ≤ cs.step.val) →
      defaultSetProposal env cs p = (cs, none)) ∧
    ((cs.proposal = none ∧ p.height = cs.height ∧ p.round = cs.round ∧
        cs.step.val < RoundStepType.commit.val ∧
        (p.polRound = -1 ∨ (0 ≤ p.polRound ∧ p.polRound ≤ p.round - 1)) ∧
        verifyBytes cs.validators.getProposer.pubKey
          (proposalSignBytes env.chainID p) p.signature = true) →
      (defaultSetProposal env cs p).2 = none) := by
  constructor
  · intro h
    unfold defaultSetProposal
    split_ifs with h1 h2 h3 h4 h5
    · rfl
    · rfl
    · rfl
    · exfalso
      rcases h with h | h | h | h
      · exact h1 h
      · exact h2 (Or.inl h)
      · exact h2 (Or.inr h)
      · exact h3 h
    · exfalso
      rcases h with h | h | h | h
      · exact h1 h
      · exact h2 (Or.inl h)
      · exact h2 (Or.inr h)
      · exact h3 h
    · exfalso
      rcases h with h | h | h | h
      · exact h1 h
      · exact h2 (Or.inl h)
      · exact h2 (Or.inr h)
      · exact h3 h
  · rintro ⟨h1, h2, h3, h4, h5, h6⟩
    unfold defaultSetProposal
    rw [if_neg (by simp [h1]), if_neg (by omega), if_neg (by omega),
      if_neg (by omega), if_neg (by simp [h6])]

/-- Claim C10 witness: a proposal at the wrong height is silently ignored
with a nil error and an unchanged state. -/
theorem c10_witness : defaultSetProposal envW baseCs propWrongHeight = (baseCs, none) :=
  (c10_silent_ignore envW baseCs propWrongHeight).1 (Or.inr (Or.inl (by decide)))

/-- Claim C4: for an aggregate whose bitmap length matches the validator
set and whose BLS signature verifies, `BLSVerifySignAggr` returns
maj23 = true exactly when the tallied voting power of the set bits reaches
the quorum of `⌊2/3·Σtotal⌋ + 1`; a bitmap length mismatch or a failing
signature check yields an error. -/
theorem c4_bls_verify (vals : ValidatorSet) (sa : SignAggr) (sigs : List Sig)
    (hs : sa.signAggr = some sigs) :
    ((vals.size = sa.bitArray.length ∧
        aggrVerify (vals.aggrKeys sa.bitArray)
          (.voteBytes sa.chainID sa.height sa.round sa.type sa.blockID) sigs = true) →
      (BLSVerifySignAggr vals (some sa) = .ok true ↔
        vals.totalVotingPower * 2 / 3 + 1 ≤ vals.talliedVotingPower sa.bitArray)) ∧
    (vals.size ≠ sa.bitArray.length →
      BLSVerifySignAggr vals (some sa) = .error "validators are not matched") ∧
    ((vals.size = sa.bitArray.length ∧
        aggrVerify (vals.aggrKeys sa.bitArray)
          (.voteBytes sa.chainID sa.height sa.round sa.type sa.blockID) sigs = false) →
      BLSVerifySignAggr vals (some sa) = .error "Invalid aggregate signature") := by
  refine ⟨?_, ?_, ?_⟩
  · rintro ⟨hsz, hver⟩
    rw [blsVerify_some vals sa sigs hs,
      if_neg (not_not_intro hsz), if_neg (not_not_intro hver)]
    simp only [Except.ok.injEq, decide_eq_true_eq, ge_iff_le]
  · intro hsz
    rw [blsVerify_some vals sa sigs hs, if_pos hsz]
  · rintro ⟨hsz, hver⟩
    rw [blsVerify_some vals sa sigs hs,
      if_neg (not_not_intro hsz), if_pos (by simp [hver])]

/-- Claim C4 witness: a concrete aggregate of three matching unit-power
signatures out of four validators (power 3, quorum 3) verifies with
maj23 = true. -/
theorem c4_witness : BLSVerifySignAggr vals4 (some c4SaW) = .ok true :=
  ((c4_bls_verify vals4 c4SaW
      [{ signer := 101, msg := msgB }, { signer := 102, msg := msgB },
       { signer := 103, msg := msgB }] rfl).1 ⟨by decide, by decide⟩).mpr (by decide)

/-- Claim C6 (amended): `setMaj23SignAggr` rejects, leaving the RoundState
unchanged: an aggregate whose verification reports maj23 = false — in
particular one short of the +2/3 quorum — is rejected with the
InvalidSignatureAggr error kind (the declared NotMaj23SignatureAggr error
is never returned), and a second aggregate of the same kind at the same
height and round is rejected with the DuplicateSignatureAggr error
kind. -/
theorem c6_reject_aggregates (cs : RoundState) (sa : SignAggr) (sigs : List Sig)
    (hh : sa.height = cs.height) (hr : sa.round = cs.round)
    (hsigs : sa.signAggr = some sigs)
    (hsz : cs.validators.size = sa.bitArray.length)
    (hver : aggrVerify (cs.validators.aggrKeys sa.bitArray)
      (.voteBytes sa.chainID sa.height sa.round sa.type sa.blockID) sigs = true) :
    ((cs.validators.talliedVotingPower sa.bitArray <
        cs.validators.totalVotingPower * 2 / 3 + 1) →
      setMaj23SignAggr cs sa = (cs, some .invalidSignatureAggr, false, .noFollowUp)) ∧
    ((cs.validators.totalVotingPower * 2 / 3 + 1 ≤
        cs.validators.talliedVotingPower sa.bitArray) →
      (sa.type = .prevote → cs.prevoteMaj23SignAggr ≠ none →
        setMaj23SignAggr cs sa = (cs, some .duplicateSignatureAggr, false, .noFollowUp)) ∧
      (sa.type = .precommit → cs.precommitMaj23SignAggr ≠ none →
        setMaj23SignAggr cs sa = (cs, some .duplicateSignatureAggr, false, .noFollowUp))) := by
  have hbls : ∀ b : Bool,
      decide (cs.validators.talliedVotingPower sa.bitArray ≥
        cs.validators.totalVotingPower * 2 / 3 + 1) = b →
      BLSVerifySignAggr cs.validators (some sa) = .ok b := by
    intro b hb
    rw [blsVerify_some cs.validators sa sigs hsigs,
      if_neg (not_not_intro hsz), if_neg (not_not_intro hver), hb]
  constructor
  · intro hq
    have hfalse : BLSVerifySignAggr cs.validators (some sa) = .ok false :=
      hbls false (by simp only [decide_eq_false_iff_not, ge_iff_le]; omega)
    unfold setMaj23SignAggr
    rw [if_neg (by simp [hh, hr]), hfalse]
    rfl
  · intro hq
    have htrue : BLSVerifySignAggr cs.validators (some sa) = .ok true :=
      hbls true (by simp only [decide_eq_true_eq, ge_iff_le]; omega)
    constructor
    · intro ht hdup
      unfold setMaj23SignAggr
      rw [if_neg (by simp [hh, hr]), htrue, ht, if_pos hdup]
      rfl
    · intro ht hdup
      unfold setMaj23SignAggr
      rw [if_neg (by simp [hh, hr]), htrue, ht, if_pos hdup]
      rfl

/-- Claim C6 counterexample: a concrete aggregate with power 2 of 4
(short of the quorum of 3) and a valid signature is rejected, but with
the InvalidSignatureAggr error kind, not the NotMaj23SignatureAggr kind
the claim names; that error value is never returned by the function. -/
theorem c6_counterexample :
    setMaj23SignAggr baseCs c6SaShort =
      (baseCs, some ConsError.invalidSignatureAggr, false, FollowUp.noFollowUp) ∧
    ConsError.invalidSignatureAggr ≠ ConsError.notMaj23SignatureAggr := by
  exact ⟨by decide, by decide⟩

/-- Claim C6 witness: the amended rejection applied to the concrete
short-of-quorum aggregate. -/
theorem c6_witness :
    setMaj23SignAggr baseCs c6SaShort =
      (baseCs, some ConsError.invalidSignatureAggr, false, FollowUp.noFollowUp) :=
  (c6_reject_aggregates baseCs c6SaShort
      [{ signer := 101, msg := msgB }, { signer := 102, msg := msgB }]
      rfl rfl rfl (by decide) (by decide)).1 (by decide)

/-- Claim C1 (amended): in `enterPrecommit` at round r, when the prevote
aggregate for r has a +2/3 majority for nil and a block is locked, the
engine unlocks by setting LockedRound to 0 — the code's unlocked sentinel
(state.go:1307), not the -1 the claim states — and LockedBlock (and its
parts) to nil, and precommits nil. -/
theorem c1_unlock_on_nil_polka (env : ConsensusEnv) (cs : RoundState)
    (height round : Int) (bid : BlockID) (b : Block)
    (hh : cs.height = height) (hr : cs.round ≤ round)
    (hstep : cs.round = round → cs.step.val < RoundStepType.precommit.val)
    (hmaj : twoThirdsMajority (cs.voteSignAggr.prevotes round) = some bid)
    (hnil : bid.hash = [])
    (hpol : round ≤ (cs.voteSignAggr.polInfo).1)
    (hlock : cs.lockedBlock = some b) :
    enterPrecommit env cs height round =
      .ok ({ cs with round := round, step := .precommit, lockedRound := 0,
                     lockedBlock := none, lockedBlockParts := none },
           some { type := .precommit, hash := [], header := zeroPartSetHeader }) := by
  have hg : ¬ (cs.height ≠ height ∨ round < cs.round ∨
      (cs.round = round ∧ RoundStepType.precommit.val ≤ cs.step.val)) := by
    push_neg
    exact ⟨hh, hr, fun hc => by have := hstep hc; omega⟩
  unfold enterPrecommit
  rw [if_neg hg]
  split
  · rename_i heq
    rw [hmaj] at heq
    cases heq
  · rename_i bid2 heq
    rw [hmaj] at heq
    injection heq with hb2
    subst hb2
    rw [if_neg (by omega : ¬ (cs.voteSignAggr.polInfo).1 < round), if_pos hnil,
      if_neg (by simp [hlock] : ¬ cs.lockedBlock = none)]

/-- Claim C1 counterexample: in a concrete state locked on a block, a nil
polka makes `enterPrecommit` unlock, but the resulting LockedRound is 0,
not the -1 the claim states. -/
theorem c1_counterexample :
    enterPrecommit envW c1CsW 1 1 =
      .ok ({ c1CsW with round := 1, step := .precommit, lockedRound := 0,
                        lockedBlock := none, lockedBlockParts := none },
           some { type := .precommit, hash := [], header := zeroPartSetHeader }) ∧
    ({ c1CsW with round := 1, step := .precommit, lockedRound := 0,
                  lockedBlock := none, lockedBlockParts := none } : RoundState).lockedRound
      ≠ -1 := by
  exact ⟨rfl, by decide⟩

/-- Claim C1 witness: the amended unlock evaluated on the concrete locked
state with a nil polka at round 1. -/
theorem c1_witness :
    enterPrecommit envW c1CsW 1 1 =
      .ok ({ c1CsW with round := 1, step := .precommit, lockedRound := 0,
                        lockedBlock := none, lockedBlockParts := none },
           some { type := .precommit, hash := [], header := zeroPartSetHeader }) :=
  c1_unlock_on_nil_polka envW c1CsW 1 1 zeroBlockID blockB rfl (by decide)
    (fun _ => by decide) rfl rfl (by decide) rfl

/-- Evaluation of `enterNewRound` when entering a round other than 0 at
the current height: the proposer accumulator advances, the step moves
through NewRound to Propose, Proposal, ProposalBlock, ProposalBlockParts
and the Maj23 aggregates are cleared, and the sign-aggregate set is
extended to round+1; the locked fields and the vote sets are untouched. -/
theorem enterNewRound_round_pos (cs : RoundState) (height round : Int)
    (hh : cs.height = height) (hr : cs.round ≤ round)
    (hstep : cs.round = round → cs.step = RoundStepType.newHeight)
    (h0 : ¬ round = 0) :
    enterNewRound cs height round =
      { cs with round := round, step := .propose,
                validators :=
                  if cs.round < round then cs.validators.incrementAccum (round - cs.round)
                  else cs.validators,
                proposal := none, proposalBlock := none, proposalBlockParts := none,
                prevoteMaj23SignAggr := none, precommitMaj23SignAggr := none,
                voteSignAggr := { cs.voteSignAggr with round := round + 1 } } := by
  have hg : ¬ (cs.height ≠ height ∨ round < cs.round ∨
      (cs.round = round ∧ cs.step ≠ RoundStepType.newHeight)) := by
    push_neg
    exact ⟨hh, hr, hstep⟩
  simp only [enterNewRound, enterProposeStep, enterPrevoteStep, HeightVoteSignAggr.setRound]
  rw [if_neg hg, if_neg h0]
  simp [hh, RoundStepType.val]

/-- Evaluation of `enterNewRound` when entering round 0: Proposal,
ProposalBlock, ProposalBlockParts, the Maj23 aggregates and the locked
fields all survive; only the round/step bookkeeping, the validators and
the sign-aggregate round marker change (and the step continues to Prevote
when a proposal already arrived). -/
theorem enterNewRound_round_zero (cs : RoundState) (height : Int)
    (hh : cs.height = height) (hr : cs.round ≤ 0)
    (hstep : cs.round = 0 → cs.step = RoundStepType.newHeight) :
    enterNewRound cs height 0 =
      { cs with round := 0,
                step := if cs.proposal ≠ none then RoundStepType.prevote
                        else RoundStepType.propose,
                validators :=
                  if cs.round < 0 then cs.validators.incrementAccum (0 - cs.round)
                  else cs.validators,
                voteSignAggr := { cs.voteSignAggr with round := 1 } } := by
  have hg : ¬ (cs.height ≠ height ∨ (0 : Int) < cs.round ∨
      (cs.round = 0 ∧ cs.step ≠ RoundStepType.newHeight)) := by
    push_neg
    exact ⟨hh, hr, hstep⟩
  simp only [enterNewRound, enterProposeStep, enterPrevoteStep, HeightVoteSignAggr.setRound]
  rw [if_neg hg]
  by_cases hp : cs.proposal = none
  · simp [hh, hp, RoundStepType.val]
  · simp [hh, hp, RoundStepType.val]

/-- Claim C9 (amended): entering a new round r ≥ 1 at the same height
clears Proposal, ProposalBlock and ProposalBlockParts but leaves
LockedBlock (and LockedRound) unchanged — locks persist across rounds,
contrary to the claim's "clears ... LockedBlock"; entering round 0 leaves
Proposal, ProposalBlock and LockedBlock unchanged; the height and the
recorded vote sets and sign-aggregates of earlier rounds are not cleared
by either round change. -/
theorem c9_new_round_frame (cs : RoundState) (height round : Int)
    (hh : cs.height = height) (hr : cs.round ≤ round)
    (hstep : cs.round = round → cs.step = RoundStepType.newHeight) :
    ((1 ≤ round) →
      (enterNewRound cs height round).proposal = none ∧
      (enterNewRound cs height round).proposalBlock = none ∧
      (enterNewRound cs height round).proposalBlockParts = none ∧
      (enterNewRound cs height round).lockedBlock = cs.lockedBlock ∧
      (enterNewRound cs height round).lockedRound = cs.lockedRound ∧
      (enterNewRound cs height round).height = cs.height ∧
      (enterNewRound cs height round).votes = cs.votes ∧
      (enterNewRound cs height round).voteSignAggr.prevotesSA =
        cs.voteSignAggr.prevotesSA ∧
      (enterNewRound cs height round).voteSignAggr.precommitsSA =
        cs.voteSignAggr.precommitsSA) ∧
    (round = 0 →
      (enterNewRound cs height round).proposal = cs.proposal ∧
      (enterNewRound cs height round).proposalBlock = cs.proposalBlock ∧
      (enterNewRound cs height round).lockedBlock = cs.lockedBlock ∧
      (enterNewRound cs height round).height = cs.height ∧
      (enterNewRound cs height round).votes = cs.votes) := by
  constructor
  · intro h1
    rw [enterNewRound_round_pos cs height round hh hr hstep (by omega)]
    simp
  · intro h0
    subst h0
    rw [enterNewRound_round_zero cs height hh hr hstep]
    simp

/-- Claim C9 counterexample: a concrete state locked on a block enters
round 1; Proposal and ProposalBlock are cleared but LockedBlock still
holds the locked block, refuting the claim that it is cleared. -/
theorem c9_counterexample :
    (enterNewRound c9CsW 1 1).proposal = none ∧
    (enterNewRound c9CsW 1 1).lockedBlock = some blockB ∧
    some blockB ≠ (none : Option Block) := by
  exact ⟨by decide, by decide, by decide⟩

/-- Claim C9 witness: the amended frame property evaluated on the
concrete locked state entering round 1. -/
theorem c9_witness :
    (enterNewRound c9CsW 1 1).proposal = none ∧
    (enterNewRound c9CsW 1 1).proposalBlock = none ∧
    (enterNewRound c9CsW 1 1).proposalBlockParts = none ∧
    (enterNewRound c9CsW 1 1).lockedBlock = c9CsW.lockedBlock ∧
    (enterNewRound c9CsW 1 1).lockedRound = c9CsW.lockedRound ∧
    (enterNewRound c9CsW 1 1).height = c9CsW.height ∧
    (enterNewRound c9CsW 1 1).votes = c9CsW.votes ∧
    (enterNewRound c9CsW 1 1).voteSignAggr.prevotesSA =
      c9CsW.voteSignAggr.prevotesSA ∧
    (enterNewRound c9CsW 1 1).voteSignAggr.precommitsSA =
      c9CsW.voteSignAggr.precommitsSA :=
  (c9_new_round_frame c9CsW 1 1 rfl (by decide)
    (fun hc => absurd hc (by decide))).1 (by decide)

/-- Claim C2: in every trace `finalizeCommit` can produce, the seen
commit is built from `precommits(CommitRound)` strictly before the block
is persisted to the block store, every block save precedes the WAL
end-height record, and the WAL end-height record precedes the ApplyBlock
invocation on the application connection. -/
theorem c2_finalize_commit_ordering (cs : FcState) (height : Int) (tr : List FcAction)
    (h : finalizeCommitTrace cs height = .ok tr) :
    PrecededP isBuildSeen isSaveBlockAct tr ∧
    AllBeforeP isSaveBlockAct isWalEnd tr ∧
    AllBeforeP isWalEnd isApplyBlockAct tr := by
  simp only [finalizeCommitTrace] at h
  split at h
  · injection h with h
    subst h
    exact ⟨precededChk_sound _ _ _ rfl, allBeforeChk_sound _ _ _ rfl,
      allBeforeChk_sound _ _ _ rfl⟩
  · split at h
    · exact Except.noConfusion h
    · split at h
      · exact Except.noConfusion h
      · split at h
        · exact Except.noConfusion h
        · split at h
          · exact Except.noConfusion h
          · split at h
            · exact Except.noConfusion h
            · split at h
              · injection h with h
                subst h
                split
                · split
                  · exact ⟨precededChk_sound _ _ _ rfl, allBeforeChk_sound _ _ _ rfl,
                      allBeforeChk_sound _ _ _ rfl⟩
                  · exact ⟨precededChk_sound _ _ _ rfl, allBeforeChk_sound _ _ _ rfl,
                      allBeforeChk_sound _ _ _ rfl⟩
                · split
                  · exact ⟨precededChk_sound _ _ _ rfl, allBeforeChk_sound _ _ _ rfl,
                      allBeforeChk_sound _ _ _ rfl⟩
                  · exact ⟨precededChk_sound _ _ _ rfl, allBeforeChk_sound _ _ _ rfl,
                      allBeforeChk_sound _ _ _ rfl⟩
              · injection h with h
                subst h
                split
                · split
                  · exact ⟨precededChk_sound _ _ _ rfl, allBeforeChk_sound _ _ _ rfl,
                      allBeforeChk_sound _ _ _ rfl⟩
                  · exact ⟨precededChk_sound _ _ _ rfl, allBeforeChk_sound _ _ _ rfl,
                      allBeforeChk_sound _ _ _ rfl⟩
                · split
                  · exact ⟨precededChk_sound _ _ _ rfl, allBeforeChk_sound _ _ _ rfl,
                      allBeforeChk_sound _ _ _ rfl⟩
                  · exact ⟨precededChk_sound _ _ _ rfl, allBeforeChk_sound _ _ _ rfl,
                      allBeforeChk_sound _ _ _ rfl⟩

/-- Claim C2 witness: the ordering evaluated on the concrete full-path
finalize trace. -/
theorem c2_witness :
    PrecededP isBuildSeen isSaveBlockAct c2TraceW ∧
    AllBeforeP isSaveBlockAct isWalEnd c2TraceW ∧
    AllBeforeP isWalEnd isApplyBlockAct c2TraceW :=
  c2_finalize_commit_ordering c2FcW 1 c2TraceW rfl

/-- Claim C8: in every iteration of the receive routine, a consumed event
(peer message, internal message, or timeout tick) is written to the WAL
strictly before its handler runs: any handler action in the iteration's
trace is preceded by the WAL save of that same event. -/
theorem c8_wal_before_handle (inp : RxInput) (j : Nat) (a : RxAction)
    (hj : (receiveRoutineStep inp)[j]? = some a) (ha : isHandle a = true) :
    ∃ (i : Nat) (b : RxAction), i < j ∧ (receiveRoutineStep inp)[i]? = some b ∧
      b = .walSave (walEntryOf inp) := by
  cases inp with
  | fromPeer mi =>
    cases j with
    | zero =>
      simp only [receiveRoutineStep, List.getElem?_cons_zero] at hj
      injection hj with h
      subst h
      simp [isHandle] at ha
    | succ k =>
      cases k with
      | zero => exact ⟨0, .walSave (.msgEntry mi), by omega, rfl, rfl⟩
      | succ m => simp [receiveRoutineStep] at hj
  | fromInternal mi =>
    cases j with
    | zero =>
      simp only [receiveRoutineStep, List.getElem?_cons_zero] at hj
      injection hj with h
      subst h
      simp [isHandle] at ha
    | succ k =>
      cases k with
      | zero => exact ⟨0, .walSave (.msgEntry mi), by omega, rfl, rfl⟩
      | succ m => simp [receiveRoutineStep] at hj
  | tick ti =>
    cases j with
    | zero =>
      simp only [receiveRoutineStep, List.getElem?_cons_zero] at hj
      injection hj with h
      subst h
      simp [isHandle] at ha
    | succ k =>
      cases k with
      | zero => exact ⟨0, .walSave (.timeoutEntry ti), by omega, rfl, rfl⟩
      | succ m => simp [receiveRoutineStep] at hj

/-- Claim C8 witness: the WAL save precedes the handler for a concrete
peer proposal message. -/
theorem c8_witness :
    ∃ (i : Nat) (b : RxAction), i < 1 ∧
      (receiveRoutineStep (.fromPeer miW))[i]? = some b ∧
      b = .walSave (walEntryOf (.fromPeer miW)) :=
  c8_wal_before_handle (.fromPeer miW) 1 (.handleMsg miW) rfl rfl

/-- Setting the element just past a prefix. -/
theorem set_len_append (pre : List Bool) (x y : Bool) (rest : List Bool) :
    (pre ++ x :: rest).set pre.length y = pre ++ y :: rest := by
  induction pre with
  | nil => rfl
  | cons a t ih => simp [List.set, ih]

/-- The bit array built by the `sendMaj23SignAggr` vote loop: starting
from a prefix already processed and fresh false bits for the remaining
votes, the loop produces one bit per vote, set exactly when the vote is
present. -/
theorem aggrLoop_bits :
    ∀ (votes : List (Option Vote)) (pre : List Bool) (sigs : List Sig)
      (bid : BlockID) (ss : Option SignBytes),
      (aggrLoop pre.length
        { bits := pre ++ List.replicate votes.length false, sigs := sigs,
          bid := bid, ss := ss } votes).bits = pre ++ votes.map Option.isSome := by
  intro votes
  induction votes with
  | nil => intro pre sigs bid ss; simp [aggrLoop]
  | cons ov rest ih =>
    intro pre sigs bid ss
    cases ov with
    | none =>
      simp only [aggrLoop]
      have h1 : pre ++ List.replicate (none :: rest : List (Option Vote)).length false
          = (pre ++ [false]) ++ List.replicate rest.length false := by
        simp [List.replicate_succ]
      have h2 : pre.length + 1 = (pre ++ [false]).length := by simp
      rw [h1, h2, ih (pre ++ [false]) sigs bid ss]
      simp
    | some v =>
      simp only [aggrLoop]
      have h1 : (pre ++ List.replicate (some v :: rest : List (Option Vote)).length false).set
          pre.length true = (pre ++ [true]) ++ List.replicate rest.length false := by
        rw [show List.replicate (some v :: rest : List (Option Vote)).length false
            = false :: List.replicate rest.length false from by simp [List.replicate_succ],
          set_len_append]
        simp
      have h2 : pre.length + 1 = (pre ++ [true]).length := by simp
      rw [h1, h2, ih (pre ++ [true]) (sigs ++ [v.signature]) v.blockID (some v.signBytes)]
      simp

/-- The signatures collected by the vote loop are those of the present
votes, in index order. -/
theorem aggrLoop_sigs :
    ∀ (votes : List (Option Vote)) (i : Nat) (acc : AggrAcc),
      (aggrLoop i acc votes).sigs =
        acc.sigs ++ (votes.filterMap id).map Vote.signature := by
  intro votes
  induction votes with
  | nil => intro i acc; simp [aggrLoop]
  | cons ov rest ih =>
    intro i acc
    cases ov with
    | none => simp [aggrLoop, ih]
    | some v => simp [aggrLoop, ih]

/-- The BlockID the vote loop leaves in its accumulator is the fold of
the present votes' BlockIDs over the initial value. -/
theorem aggrLoop_bid :
    ∀ (votes : List (Option Vote)) (i : Nat) (acc : AggrAcc),
      (aggrLoop i acc votes).bid =
        (votes.filterMap id).foldl (fun _ v => v.blockID) acc.bid := by
  intro votes
  induction votes with
  | nil => intro i acc; simp [aggrLoop]
  | cons ov rest ih =>
    intro i acc
    cases ov with
    | none => simp [aggrLoop, ih]
    | some v => simp [aggrLoop, ih]

/-- Folding to the last BlockID of a non-empty list whose votes all carry
the same BlockID yields that BlockID. -/
theorem foldl_const_blockID :
    ∀ (l : List Vote) (b : BlockID) (x : BlockID),
      (∀ v ∈ l, v.blockID = b) → l ≠ [] →
      l.foldl (fun _ v => v.blockID) x = b := by
  intro l
  induction l with
  | nil => intro b x _ hne; exact absurd rfl hne
  | cons v rest ih =>
    intro b x hall _
    rw [List.foldl_cons]
    cases hr : rest with
    | nil =>
      subst hr
      exact hall v (by simp)
    | cons w ws =>
      subst hr
      exact ih b v.blockID (fun u hu => hall u (by simp [hu])) (by simp)

/-- Under `VoteSigProp`, the signers of the present votes' signatures are
exactly the public keys the verifier aggregates from the presence bitmap,
and every present vote carries the canonical message for the target
BlockID. -/
theorem c3_keys_and_msgs (chainID : String) (height round : Int) (t : VoteType)
    (b : BlockID) :
    ∀ (vl : List Validator) (votes : List (Option Vote)),
      List.Forall₂ (VoteSigProp chainID height round t b) vl votes →
      ((votes.filterMap id).map (fun v => v.signature.signer) =
        (vl.zip (votes.map Option.isSome)).filterMap
          (fun p => if p.2 then some p.1.pubKey else none)) ∧
      (∀ v ∈ votes.filterMap id,
        v.signature.msg = .voteBytes chainID height round t b) ∧
      (∀ v ∈ votes.filterMap id, v.blockID = b) := by
  intro vl votes hf
  induction hf with
  | nil => simp
  | cons hpq htl ih =>
    rename_i val ov vl' votes'
    obtain ⟨ih1, ih2, ih3⟩ := ih
    cases ov with
    | none =>
      refine ⟨?_, ?_, ?_⟩
      · simpa using ih1
      · simpa using ih2
      · simpa using ih3
    | some v =>
      obtain ⟨hb, hsig⟩ := hpq v rfl
      refine ⟨?_, ?_, ?_⟩
      · simp only [List.filterMap_cons, List.map_cons, Option.isSome_some,
          List.zip_cons_cons]
        simp [ih1, hsig]
      · intro u hu
        simp only [List.filterMap_cons] at hu
        simp only [id_eq, List.mem_cons] at hu
        rcases hu with hu | hu
        · subst hu; rw [hsig]
        · exact ih2 u hu
      · intro u hu
        simp only [List.filterMap_cons] at hu
        simp only [id_eq, List.mem_cons] at hu
        rcases hu with hu | hu
        · subst hu; exact hb
        · exact ih3 u hu

/-- A BlockID with a non-empty hash is not the zero BlockID. -/
theorem blockID_isZero_false (b : BlockID) (hb : b.hash ≠ []) : b.isZero = false := by
  rw [BlockID.isZero]
  refine beq_eq_false_iff_ne.mpr ?_
  intro he
  apply hb
  rw [he]
  rfl

/-- Claim C3 (amended): for a vote set V (one optional vote per validator
index) whose present votes are all for BlockID b, carry the validators'
signatures over the canonical encoding, and reach the +2/3 quorum, the
sign-aggregate built by `sendMaj23SignAggr` has its bitmap bit set exactly
at the validator-indices of ALL non-nil votes in V — the source sets the
bit for every non-nil vote, not only those matching b — and verifying the
aggregate against the same validator set returns maj23 = true. -/
theorem c3_aggregate_roundtrip (chainID : String) (height round : Int) (t : VoteType)
    (vals : ValidatorSet) (votes : List (Option Vote)) (b : BlockID)
    (hlen : votes.length = vals.size)
    (hf : List.Forall₂ (VoteSigProp chainID height round t b) vals.validators votes)
    (hb : b.hash ≠ [])
    (hne : votes.filterMap id ≠ [])
    (hpow : vals.totalVotingPower * 2 / 3 + 1 ≤
      vals.talliedVotingPower (votes.map Option.isSome)) :
    ∃ agg : SignAggr,
      sendMaj23SignAggr chainID height round t vals.size votes b = .ok agg ∧
      agg.bitArray = votes.map Option.isSome ∧
      BLSVerifySignAggr vals (some agg) = .ok true := by
  obtain ⟨hkeys, hmsgs, hbids⟩ :=
    c3_keys_and_msgs chainID height round t b vals.validators votes hf
  have hbits : (aggrLoop 0
      { bits := List.replicate vals.size false, sigs := [], bid := zeroBlockID,
        ss := none } votes).bits = votes.map Option.isSome := by
    rw [← hlen]
    simpa using aggrLoop_bits votes [] [] zeroBlockID none
  have hsigs : (aggrLoop 0
      { bits := List.replicate vals.size false, sigs := [], bid := zeroBlockID,
        ss := none } votes).sigs = (votes.filterMap id).map Vote.signature := by
    simpa using aggrLoop_sigs votes 0 _
  have hbid : (aggrLoop 0
      { bits := List.replicate vals.size false, sigs := [], bid := zeroBlockID,
        ss := none } votes).bid = b := by
    rw [aggrLoop_bid votes 0 _]
    exact foldl_const_blockID _ b zeroBlockID hbids hne
  have hemp : ((votes.filterMap id).map Vote.signature).isEmpty = false := by
    cases hfm : votes.filterMap id with
    | nil => exact absurd hfm hne
    | cons v vs => rfl
  have hver : aggrVerify (vals.aggrKeys (votes.map Option.isSome))
      (.voteBytes chainID height round t b)
      ((votes.filterMap id).map Vote.signature) = true := by
    unfold aggrVerify ValidatorSet.aggrKeys
    rw [Bool.and_eq_true]
    constructor
    · apply beq_iff_eq.mpr
      rw [List.map_map]
      exact hkeys
    · apply List.all_eq_true.mpr
      intro s hs
      obtain ⟨v, hv, hveq⟩ := List.mem_map.mp hs
      subst hveq
      exact beq_iff_eq.mpr (hmsgs v hv)
  simp only [sendMaj23SignAggr]
  rw [hsigs, hbits, hbid]
  rw [if_neg (by simp [hemp])]
  rw [if_neg (by simp [blockID_isZero_false b hb])]
  refine ⟨_, rfl, ?_, ?_⟩
  · simp [makeSignAggr, SignAggr.setMaj23]
  · rw [blsVerify_some vals _ ((votes.filterMap id).map Vote.signature)
      (by simp [makeSignAggr, SignAggr.setMaj23])]
    simp only [makeSignAggr, SignAggr.setMaj23]
    rw [if_neg (by simp [hlen]), if_neg (not_not_intro hver)]
    simp [ge_iff_le, hpow]

/-- Claim C3 counterexample: with three prevotes for `bidB` (power 3 of
4, a +2/3 majority for `bidB`) plus a nil prevote by the fourth
validator, the aggregate built by `sendMaj23SignAggr` sets the fourth bit
too, so its bitmap differs from the bitmap the claim prescribes (bits
only at the indices of non-nil votes whose BlockID equals b). -/
theorem c3_counterexample :
    2 * vals4.totalVotingPower < 3 * powerForBlock vals4 c3VotesX bidB ∧
    sendMaj23SignAggr "pchain" 1 0 .prevote 4 c3VotesX bidB = .ok c3AggX ∧
    c3AggX.bitArray ≠ claimBitmap c3VotesX bidB := by
  exact ⟨by decide, rfl, by decide⟩

/-- Claim C3 witness: the amended round-trip evaluated on three concrete
prevotes for `bidB` with the fourth validator absent. -/
theorem c3_witness :
    ∃ agg : SignAggr,
      sendMaj23SignAggr "pchain" 1 0 .prevote vals4.size c3VotesW bidB = .ok agg ∧
      agg.bitArray = c3VotesW.map Option.isSome ∧
      BLSVerifySignAggr vals4 (some agg) = .ok true :=
  c3_aggregate_roundtrip "pchain" 1 0 .prevote vals4 c3VotesW bidB (by decide)
    (by
      refine .cons ?_ (.cons ?_ (.cons ?_ (.cons ?_ .nil)))
      · intro v hv; injection hv with h; subst h; exact ⟨rfl, rfl⟩
      · intro v hv; injection hv with h; subst h; exact ⟨rfl, rfl⟩
      · intro v hv; injection hv with h; subst h; exact ⟨rfl, rfl⟩
      · intro v hv; exact Option.noConfusion hv)
    (by decide) (by decide) (by decide)

end Pchain
